import Mathlib

/-!
# Verification of the fleet-routing formulation and route-decoding layer

Shallow embedding of the MILP formulation builders and route decoders of the
`proyecto_c` repository (src/modelo_caso1.py, src/modelo_caso2.py,
src/modelo_caso3.py) over exact rational arithmetic, together with theorems
settling the specification claims about them.

Conventions:
* node ids and vehicle ids are natural numbers;
* Pyomo `Binary` variables are embedded as `Bool`-valued functions, coerced
  into `ℚ` by `bx` when they appear in arithmetic;
* `NonNegativeReals` variables are `ℚ`-valued functions whose nonnegativity
  is part of the feasibility predicate, and Pyomo variable `bounds` are part
  of the feasible set;
* each `...Sat` predicate is the conjunction of every constraint (and domain
  bound) the corresponding `build_model...` function emits, each conjunct
  translated from the rule function named in the comment above it;
* the decoding loops are embedded with an explicit fuel / iteration-counter
  argument that mirrors the source's loop bound where the source has one
  (`modelo_caso1.py` line 539, `modelo_caso3.py` line 599); the Case 2 loop
  is an unbounded `while True`, and the fuel-stability theorems below prove
  that the fuel value used in its embedding never binds.
-/

/-- Coercion of a binary decision variable into the rationals. -/
def bx (b : Bool) : ℚ := if b then 1 else 0

/-! ## Case 2 data model (`modelo_caso2.py`, `build_model_caso2`) -/

/-- The data dictionary consumed by `build_model_caso2` (`data2`):
depot id, client / station / node / vehicle lists, distances, demands,
load capacities, tank capacities, fleet fuel efficiency (km per gallon)
and station fuel prices. -/
structure Caso2Data where
  depot : ℕ
  clients : List ℕ
  stations : List ℕ
  nodes : List ℕ
  vehicles : List ℕ
  dist : ℕ → ℕ → ℚ
  demanda : ℕ → ℚ
  load_cap : ℕ → ℚ
  fuel_cap : ℕ → ℚ
  fuel_efficiency : ℚ
  fuel_price : ℕ → ℚ

/-- `ARCS = [(i, j) for i in NODES for j in NODES if i != j]`
(modelo_caso2.py line 84). -/
def arcos2 (d : Caso2Data) : List (ℕ × ℕ) :=
  d.nodes.flatMap fun i => (d.nodes.filter fun j => j ≠ i).map fun j => (i, j)

/-- Arc fuel consumption `dist[i,j] / fuel_efficiency`
(modelo_caso2.py line 287). -/
def consumo2 (d : Caso2Data) (i j : ℕ) : ℚ := d.dist i j / d.fuel_efficiency

/-- A value for every decision variable of the Case 2 model:
`x[v,i,j]`, `y[v]`, `cargo[v,i]`, `combustible[v,i]`, `recarga[v,i]`. -/
structure Caso2Sol where
  x : ℕ → ℕ → ℕ → Bool
  y : ℕ → Bool
  cargo : ℕ → ℕ → ℚ
  combustible : ℕ → ℕ → ℚ
  recarga : ℕ → ℕ → ℚ

/-- The full Case 2 feasible set: the conjunction of every constraint emitted
by `build_model_caso2` (R1–R12, modelo_caso2.py lines 177–325) plus the
nonnegativity domain of the continuous variables. -/
def caso2Sat (d : Caso2Data) (s : Caso2Sol) : Prop :=
  -- variable domains: cargo, combustible, recarga ∈ NonNegativeReals
  (∀ v ∈ d.vehicles, ∀ i ∈ d.nodes,
      0 ≤ s.cargo v i ∧ 0 ≤ s.combustible v i ∧ 0 ≤ s.recarga v i) ∧
  -- R1 `asignacion_clientes_rule`: each client has exactly one incoming
  -- selected arc, summed over all vehicles
  (∀ c ∈ d.clients,
      ((d.vehicles.map fun v =>
        ((d.nodes.filter fun i => (i, c) ∈ arcos2 d).map fun i =>
          bx (s.x v i c)).sum).sum) = 1) ∧
  -- R2 `salida_depot_rule`
  (∀ v ∈ d.vehicles,
      ((d.nodes.filter fun j => (d.depot, j) ∈ arcos2 d).map fun j =>
        bx (s.x v d.depot j)).sum = bx (s.y v)) ∧
  -- R3 `retorno_depot_rule`
  (∀ v ∈ d.vehicles,
      ((d.nodes.filter fun i => (i, d.depot) ∈ arcos2 d).map fun i =>
        bx (s.x v i d.depot)).sum = bx (s.y v)) ∧
  -- R4 `conservacion_flujo_rule` (skipped at the depot)
  (∀ v ∈ d.vehicles, ∀ i ∈ d.nodes, i ≠ d.depot →
      ((d.nodes.filter fun j => (j, i) ∈ arcos2 d).map fun j =>
        bx (s.x v j i)).sum =
      ((d.nodes.filter fun j => (i, j) ∈ arcos2 d).map fun j =>
        bx (s.x v i j)).sum) ∧
  -- R5 `carga_inicial_rule`
  (∀ v ∈ d.vehicles, s.cargo v d.depot = 0) ∧
  -- R6 `balance_carga_rule` (skipped when the arc touches the depot),
  -- with big-M `M = load_cap[v]`
  (∀ v ∈ d.vehicles, ∀ p ∈ arcos2 d, p.1 ≠ d.depot → p.2 ≠ d.depot →
      s.cargo v p.2 ≥ s.cargo v p.1 +
        (if p.2 ∈ d.clients then d.demanda p.2 else 0) -
        d.load_cap v * (1 - bx (s.x v p.1 p.2))) ∧
  -- R7 `capacidad_carga_rule`
  (∀ v ∈ d.vehicles, ∀ i ∈ d.nodes, s.cargo v i ≤ d.load_cap v) ∧
  -- R8 `combustible_inicial_rule`: full tank at the depot
  (∀ v ∈ d.vehicles, s.combustible v d.depot = d.fuel_cap v) ∧
  -- R9 `balance_combustible_rule`, with big-M `M = fuel_cap[v] + consumo`
  (∀ v ∈ d.vehicles, ∀ p ∈ arcos2 d,
      s.combustible v p.2 ≥ s.combustible v p.1 - consumo2 d p.1 p.2 +
        s.recarga v p.2 -
        (d.fuel_cap v + consumo2 d p.1 p.2) * (1 - bx (s.x v p.1 p.2))) ∧
  -- R10 `capacidad_combustible_rule`
  (∀ v ∈ d.vehicles, ∀ i ∈ d.nodes, s.combustible v i ≤ d.fuel_cap v) ∧
  -- R11 `recarga_solo_estaciones_rule` (skipped at stations and the depot)
  (∀ v ∈ d.vehicles, ∀ i ∈ d.nodes, i ∉ d.stations → i ≠ d.depot →
      s.recarga v i = 0) ∧
  -- R12 `combustible_no_negativo_rule`
  (∀ v ∈ d.vehicles, ∀ i ∈ d.nodes, 0 ≤ s.combustible v i)

/-! ## Case 2 route decoder (`extraer_solucion_caso2`, lines 376–396)

The Python decoder runs `while True`, scanning `NODES` in order for the first
unvisited successor `j` with `(nodo_actual, j) in model.A` and
`x[v, nodo_actual, j] > 0.5`; when none exists, or the successor is the depot
(unreachable, since the depot is in `visitados` from the start), it appends
the depot and stops. -/

/-- One successor search of the Case 2 decoder: the first `j` in `NODES`
order with `j ∉ visitados`, `(cur, j) ∈ ARCS` and `x[v, cur, j]` selected. -/
def caso2Next (d : Caso2Data) (s : Caso2Sol) (v : ℕ) (visit : List ℕ)
    (cur : ℕ) : Option ℕ :=
  d.nodes.find? fun j =>
    !(visit.contains j) && decide ((cur, j) ∈ arcos2 d) && s.x v cur j

/-- The Case 2 decoding loop, with explicit fuel. -/
def caso2WalkAux (d : Caso2Data) (s : Caso2Sol) (v : ℕ) :
    ℕ → List ℕ → ℕ → List ℕ
  | 0, _, _ => []
  | fuel + 1, visit, cur =>
    match caso2Next d s v visit cur with
    | none => [d.depot]
    | some j =>
      if j = d.depot then [d.depot]
      else j :: caso2WalkAux d s v fuel (j :: visit) j

/-- The number of still-unvisited nodes, which bounds the remaining
iterations of the Case 2 decoding loop. -/
def caso2Pool (d : Caso2Data) (visit : List ℕ) : ℕ :=
  (d.nodes.filter fun a => !(visit.contains a)).length

/-- The decoded route of vehicle `v` in `extraer_solucion_caso2`:
start at the depot with `visitados = {DEPOT}` and follow selected arcs. -/
def decodeCaso2 (d : Caso2Data) (s : Caso2Sol) (v : ℕ) : List ℕ :=
  d.depot :: caso2WalkAux d s v (d.nodes.length + 1) [d.depot] d.depot

/-! ## Fuel-balance simulation (spec §8, "Fuel non-negativity")

The specification's check: start from a full tank at depot departure and,
along the decoded route, subtract each traversed arc's consumption and add
the refuel amount assigned at the arriving node.  `simFuel` returns the fuel
level after each arrival event, in route order. -/

/-- Fuel levels after each arrival on a route, starting from level `lvl`. -/
def simFuel (d : Caso2Data) (s : Caso2Sol) (v : ℕ) :
    ℚ → List ℕ → List ℚ
  | _, [] => []
  | _, [_] => []
  | lvl, i :: j :: rest =>
    (lvl - consumo2 d i j + s.recarga v j) ::
      simFuel d s v (lvl - consumo2 d i j + s.recarga v j) (j :: rest)

/-- The simulated fuel trace of vehicle `v` on route `ruta`, from a full
tank. -/
def simFuelRoute (d : Caso2Data) (s : Caso2Sol) (v : ℕ) (ruta : List ℕ) :
    List ℚ :=
  simFuel d s v (d.fuel_cap v) ruta

/-! ## Case 2 objective scaling (`init_fuel_price`, lines 106–120, and the
cost extraction of `extraer_solucion_caso2`, lines 446–450) -/

/-- The scaled fuel-price parameter `model.fuel_price` built by
`init_fuel_price`: station prices, the station average at the depot and a
prohibitive `1e6` at clients, all multiplied by `scale_fuel_cost`. -/
def initFuelPrice (d : Caso2Data) (scale : ℚ) (i : ℕ) : ℚ :=
  if i ∈ d.stations then d.fuel_price i * scale
  else if i = d.depot then
    ((d.stations.map d.fuel_price).sum / (d.stations.length : ℚ)) * scale
  else 1000000 * scale

/-- `model.fuel_scale = 1.0 / scale_fuel_cost` (line 120), applied to each
fuel-cost term during extraction (line 448). -/
def fuelScale (scale : ℚ) : ℚ := 1 / scale

/-! ## Concrete Case 2 instances -/

/-- One depot `0`, one client `1`, no stations, one vehicle `0`; every arc is
200 km long, the fleet does 10 km/gal (20 gal per arc) and the tank holds
10 gal, so the round trip physically needs 40 gal against a 10 gal tank. -/
def exInst : Caso2Data where
  depot := 0
  clients := [1]
  stations := []
  nodes := [0, 1]
  vehicles := [0]
  dist := fun _ _ => 200
  demanda := fun n => if n = 1 then 5 else 0
  load_cap := fun _ => 100
  fuel_cap := fun _ => 10
  fuel_efficiency := 10
  fuel_price := fun _ => 0

/-- The assignment that drives `0 → 1 → 0` with no refuels, keeping every
fuel variable inside `[0, 10]`. -/
def exSol : Caso2Sol where
  x := fun _ i j => decide ((i = 0 ∧ j = 1) ∨ (i = 1 ∧ j = 0))
  y := fun _ => true
  cargo := fun _ _ => 0
  combustible := fun _ i => if i = 0 then 10 else 0
  recarga := fun _ _ => 0

/-- A dangling selected-arc set on `exInst`: only the arc `0 → 1` is
selected, so the decoding walk reaches node `1` and finds no outgoing
selected arc. -/
def danglingSol : Caso2Sol where
  x := fun _ i j => decide (i = 0 ∧ j = 1)
  y := fun _ => true
  cargo := fun _ _ => 0
  combustible := fun _ i => if i = 0 then 10 else 0
  recarga := fun _ _ => 0

/-- Depot `0`, client `1`, stations `2` and `3`, one vehicle; unit distances,
ample tank. -/
def cycInst : Caso2Data where
  depot := 0
  clients := [1]
  stations := [2, 3]
  nodes := [0, 1, 2, 3]
  vehicles := [0]
  dist := fun _ _ => 1
  demanda := fun n => if n = 1 then 5 else 0
  load_cap := fun _ => 100
  fuel_cap := fun _ => 100
  fuel_efficiency := 1
  fuel_price := fun _ => 1

/-- Selected arcs `0→1→0` plus the isolated station cycle `2→3→2`, which
never touches the depot. -/
def cycSol : Caso2Sol where
  x := fun _ i j =>
    decide ((i = 0 ∧ j = 1) ∨ (i = 1 ∧ j = 0) ∨
            (i = 2 ∧ j = 3) ∨ (i = 3 ∧ j = 2))
  y := fun _ => true
  cargo := fun _ _ => 0
  combustible := fun _ _ => 100
  recarga := fun _ _ => 0

/-! ## Case 1 data model (`modelo_caso1.py`, `build_model`) -/

/-- The data dictionary consumed by `build_model` (`data`): depot id,
clients, nodes (depot + clients), vehicles, distances, demands, load
capacities and maximum autonomy distances. -/
structure Caso1Data where
  depot : ℕ
  clients : List ℕ
  nodes : List ℕ
  vehicles : List ℕ
  dist : ℕ → ℕ → ℚ
  demanda : ℕ → ℚ
  load_cap : ℕ → ℚ
  max_dist : ℕ → ℚ

/-- The per-vehicle arc pattern of `valid_arcs_init` (modelo_caso1.py lines
141–156): depot→client arcs, then client→client arcs (`i ≠ j`), then
client→depot arcs, in that construction order.  `model.ARCS` is
`vehicles ×ˢ arcs1`. -/
def arcs1 (d : Caso1Data) : List (ℕ × ℕ) :=
  (d.clients.map fun j => (d.depot, j)) ++
  (d.clients.flatMap fun i =>
    (d.clients.filter fun j => j ≠ i).map fun j => (i, j)) ++
  (d.clients.map fun i => (i, d.depot))

/-- A value for every decision variable of the Case 1 model:
`x[v,i,j]`, `y[v]` and the MTZ order variable `u[v,i]`. -/
structure Caso1Sol where
  x : ℕ → ℕ → ℕ → Bool
  y : ℕ → Bool
  u : ℕ → ℕ → ℚ

/-- The selected-arc in-degree of node `c` for vehicle `v`,
`sum(x[v,j,c] for (v,j,k) in ARCS if k == c)`, as it appears in
`rule_asignacion_clientes` and `rule_capacidad`. -/
def indegQ (d : Caso1Data) (s : Caso1Sol) (v c : ℕ) : ℚ :=
  (((arcs1 d).filter fun p => p.2 = c).map fun p => bx (s.x v p.1 p.2)).sum

/-- The full Case 1 feasible set: the conjunction of every constraint emitted
by `build_model` (R1–R7, modelo_caso1.py lines 192–321) plus the MTZ
variable bounds `(1, |CLIENTS|)` from line 175. -/
def caso1Sat (d : Caso1Data) (s : Caso1Sol) : Prop :=
  -- `u` variable bounds
  (∀ v ∈ d.vehicles, ∀ c ∈ d.clients,
      1 ≤ s.u v c ∧ s.u v c ≤ (d.clients.length : ℚ)) ∧
  -- R1 `rule_asignacion_clientes`
  (∀ c ∈ d.clients, (d.vehicles.map fun v => indegQ d s v c).sum = 1) ∧
  -- R2 `rule_salida_deposito`
  (∀ v ∈ d.vehicles,
      (((arcs1 d).filter fun p => p.1 = d.depot).map fun p =>
        bx (s.x v p.1 p.2)).sum = bx (s.y v)) ∧
  -- R2 `rule_regreso_deposito`
  (∀ v ∈ d.vehicles,
      (((arcs1 d).filter fun p => p.2 = d.depot).map fun p =>
        bx (s.x v p.1 p.2)).sum = bx (s.y v)) ∧
  -- R3 `rule_conservacion_flujo`
  (∀ v ∈ d.vehicles, ∀ c ∈ d.clients,
      indegQ d s v c =
      (((arcs1 d).filter fun p => p.1 = c).map fun p =>
        bx (s.x v p.1 p.2)).sum) ∧
  -- R4 `rule_capacidad`
  (∀ v ∈ d.vehicles,
      (d.clients.map fun c => d.demanda c * indegQ d s v c).sum ≤
        d.load_cap v) ∧
  -- R5 `rule_autonomia`
  (∀ v ∈ d.vehicles,
      ((arcs1 d).map fun p => d.dist p.1 p.2 * bx (s.x v p.1 p.2)).sum ≤
        d.max_dist v) ∧
  -- R6 `rule_mtz` (client-to-client arcs only)
  (∀ v ∈ d.vehicles, ∀ i ∈ d.clients, ∀ j ∈ d.clients, i ≠ j →
      s.u v i - s.u v j + (d.clients.length : ℚ) * bx (s.x v i j) ≤
        (d.clients.length : ℚ) - 1) ∧
  -- R7 `rule_vinculacion_x_y`
  (∀ v ∈ d.vehicles, ∀ p ∈ arcs1 d, bx (s.x v p.1 p.2) ≤ bx (s.y v))

/-! ## Case 1 route decoder (`reconstruir_ruta`, lines 514–553)

The Python decoder first builds `arcos_activos`, a dict assigning to each
source node its selected successor (iterating `model.ARCS` in order, so a
later arc overwrites an earlier one with the same source), returns `[]` when
the dict is empty, and otherwise walks from the depot for at most
`len(NODES) + 1` iterations, stopping when it returns to the depot or when
the current node has no entry. -/

/-- Dict lookup `arcos_activos[cur]`: the last arc in `ARCS` order with
source `cur` and `x[v, ·, ·] > 0.5`. -/
def activeSucc (d : Caso1Data) (s : Caso1Sol) (v cur : ℕ) : Option ℕ :=
  (((arcs1 d).filter fun p =>
    decide (p.1 = cur) && s.x v p.1 p.2).getLast?).map Prod.snd

/-- The Case 1 decoding loop; the fuel argument is the source's hard
iteration cap. -/
def caso1WalkAux (d : Caso1Data) (s : Caso1Sol) (v : ℕ) : ℕ → ℕ → List ℕ
  | 0, _ => []
  | fuel + 1, cur =>
    match activeSucc d s v cur with
    | none => []
    | some j => if j = d.depot then [j] else j :: caso1WalkAux d s v fuel j

/-- `reconstruir_ruta`: empty when no arc of vehicle `v` is selected,
otherwise the walk from the depot with cap `len(NODES) + 1`. -/
def reconstruirRuta (d : Caso1Data) (s : Caso1Sol) (v : ℕ) : List ℕ :=
  if (arcs1 d).all (fun p => !(s.x v p.1 p.2)) then []
  else d.depot :: caso1WalkAux d s v (d.nodes.length + 1) d.depot

/-- `calcular_demanda_ruta` (lines 576–597): the summed demand of the
non-depot nodes of a route, repetitions included. -/
def calcularDemandaRuta (d : Caso1Data) (ruta : List ℕ) : ℚ :=
  ((ruta.filter fun n => n ≠ d.depot).map d.demanda).sum

/-- The step relation along a decoded Case 1 route: a selected valid arc. -/
def caso1Step (d : Caso1Data) (s : Caso1Sol) (v : ℕ) (a b : ℕ) : Prop :=
  (a, b) ∈ arcs1 d ∧ s.x v a b = true

/-! ## Concrete Case 1 instances -/

/-- Depot `0`, clients `1` and `2`, one vehicle. -/
def inst5 : Caso1Data where
  depot := 0
  clients := [1, 2]
  nodes := [0, 1, 2]
  vehicles := [0]
  dist := fun _ _ => 1
  demanda := fun n => if n = 1 then 10 else if n = 2 then 15 else 0
  load_cap := fun _ => 100
  max_dist := fun _ => 100

/-- A malformed selected-arc set on `inst5`: `0→1`, `1→2`, `2→1`, whose walk
from the depot enters the cycle `1 ↔ 2` and never returns to the depot. -/
def sol5 : Caso1Sol where
  x := fun _ i j =>
    decide ((i = 0 ∧ j = 1) ∨ (i = 1 ∧ j = 2) ∨ (i = 2 ∧ j = 1))
  y := fun _ => true
  u := fun _ _ => 1

/-- A dangling selected-arc set on `inst5`: only `0 → 1` is selected. -/
def sol5dangle : Caso1Sol where
  x := fun _ i j => decide (i = 0 ∧ j = 1)
  y := fun _ => true
  u := fun _ _ => 1

/-- The feasible assignment `0 → 1 → 2 → 0` on `inst5`, with MTZ order
`u[1] = 1`, `u[2] = 2`. -/
def sol5ok : Caso1Sol where
  x := fun _ i j =>
    decide ((i = 0 ∧ j = 1) ∨ (i = 1 ∧ j = 2) ∨ (i = 2 ∧ j = 0))
  y := fun _ => true
  u := fun _ c => if c = 2 then 2 else 1

/-- Depot `0`, client `1` (demand 10), one vehicle of capacity 30. -/
def inst7 : Caso1Data where
  depot := 0
  clients := [1]
  nodes := [0, 1]
  vehicles := [0]
  dist := fun _ _ => 5
  demanda := fun n => if n = 1 then 10 else 0
  load_cap := fun _ => 30
  max_dist := fun _ => 100

/-- The feasible assignment `0 → 1 → 0` on `inst7`. -/
def sol7 : Caso1Sol where
  x := fun _ i j => decide ((i = 0 ∧ j = 1) ∨ (i = 1 ∧ j = 0))
  y := fun _ => true
  u := fun _ _ => 1

/-! ## Case 3 data model (`modelo_caso3.py`, `build_model_caso3`) -/

/-- The data dictionary consumed by `build_model_caso3` (`data3`): the Case 2
data plus the pre-filtered arc list `ARCS`, per-vehicle restricted arcs,
toll arcs with their costs, and a direct per-arc `consumo` table. -/
structure Caso3Data where
  depot : ℕ
  clients : List ℕ
  stations : List ℕ
  nodes : List ℕ
  vehicles : List ℕ
  arcs : List (ℕ × ℕ)
  restricted : ℕ → ℕ → ℕ → Bool
  tollArcs : List (ℕ × ℕ)
  demanda : ℕ → ℚ
  dist : ℕ → ℕ → ℚ
  consumo : ℕ → ℕ → ℚ
  fuel_price : ℕ → ℚ
  toll_cost : ℕ → ℕ → ℚ
  load_cap : ℕ → ℚ
  fuel_cap : ℕ → ℚ
  cost_fixed : ℚ
  cost_km : ℚ

/-- `A_v[v]`: the arcs of `ARCS` not restricted for vehicle `v`
(`arcos_validos_por_vehiculo`, modelo_caso3.py lines 122–129). -/
def arcosV (d : Caso3Data) (v : ℕ) : List (ℕ × ℕ) :=
  d.arcs.filter fun p => !(d.restricted v p.1 p.2)

/-- A value for every decision variable of the Case 3 model:
`x[v,i,j]`, `y[v]`, `u[v,i]`, `carga[v,i]`, `fuel[v,i]`, `refuel[v,i]`. -/
structure Caso3Sol where
  x : ℕ → ℕ → ℕ → Bool
  y : ℕ → Bool
  u : ℕ → ℕ → ℚ
  carga : ℕ → ℕ → ℚ
  fuel : ℕ → ℕ → ℚ
  refuel : ℕ → ℕ → ℚ

/-- The full Case 3 feasible set: the conjunction of every constraint emitted
by `build_model_caso3` (R1–R13, modelo_caso3.py lines 270–404) plus the
nonnegativity domains and the `u` bounds `(0, num_nodes)` from line 206. -/
def caso3Sat (d : Caso3Data) (s : Caso3Sol) : Prop :=
  -- variable domains and `u` bounds
  (∀ v ∈ d.vehicles, ∀ i ∈ d.nodes,
      0 ≤ s.carga v i ∧ 0 ≤ s.fuel v i ∧ 0 ≤ s.refuel v i ∧
      0 ≤ s.u v i ∧ s.u v i ≤ (d.nodes.length : ℚ)) ∧
  -- R1 `asignacion_rule`: one selected outgoing arc per client
  (∀ c ∈ d.clients,
      (d.vehicles.map fun v =>
        (((arcosV d v).filter fun p => p.1 = c).map fun p =>
          bx (s.x v p.1 p.2)).sum).sum = 1) ∧
  -- R2a `flujo_depot_salida_rule`
  (∀ v ∈ d.vehicles,
      (((arcosV d v).filter fun p => p.1 = d.depot).map fun p =>
        bx (s.x v p.1 p.2)).sum = bx (s.y v)) ∧
  -- R2b `flujo_depot_entrada_rule`
  (∀ v ∈ d.vehicles,
      (((arcosV d v).filter fun p => p.2 = d.depot).map fun p =>
        bx (s.x v p.1 p.2)).sum = bx (s.y v)) ∧
  -- R3 `conservacion_flujo_rule`
  (∀ v ∈ d.vehicles, ∀ c ∈ d.clients,
      (((arcosV d v).filter fun p => p.2 = c).map fun p =>
        bx (s.x v p.1 p.2)).sum =
      (((arcosV d v).filter fun p => p.1 = c).map fun p =>
        bx (s.x v p.1 p.2)).sum) ∧
  -- R4 `vinculacion_xy_rule`
  (∀ v ∈ d.vehicles, ∀ i ∈ d.nodes, ∀ j ∈ d.nodes, (i, j) ∈ arcosV d v →
      bx (s.x v i j) ≤ bx (s.y v)) ∧
  -- R5 `mtz_rule` (non-depot arcs, coefficient `num_nodes`)
  (∀ v ∈ d.vehicles, ∀ i ∈ d.nodes, ∀ j ∈ d.nodes,
      i ≠ d.depot → j ≠ d.depot → (i, j) ∈ arcosV d v →
      s.u v i - s.u v j + (d.nodes.length : ℚ) * bx (s.x v i j) ≤
        (d.nodes.length : ℚ) - 1) ∧
  -- R6 `balance_carga_rule`
  (∀ v ∈ d.vehicles, ∀ i ∈ d.nodes, ∀ j ∈ d.nodes, (i, j) ∈ arcosV d v →
      (i = d.depot → s.carga v j = 0) ∧
      (i ≠ d.depot → j ≠ d.depot → j ∈ d.clients →
        s.carga v j ≥ s.carga v i + d.demanda j -
          d.load_cap v * (1 - bx (s.x v i j))) ∧
      (i ≠ d.depot → j ≠ d.depot → j ∉ d.clients →
        s.carga v j ≥ s.carga v i - d.load_cap v * (1 - bx (s.x v i j)))) ∧
  -- R7 `capacidad_carga_rule`
  (∀ v ∈ d.vehicles, ∀ i ∈ d.nodes, s.carga v i ≤ d.load_cap v) ∧
  -- R8 `limite_combustible_inicial_rule`: an upper bound only
  (∀ v ∈ d.vehicles, s.fuel v d.depot ≤ d.fuel_cap v) ∧
  -- R9 `balance_combustible_rule`, with big-M `M = fuel_cap[v] + consumo`
  (∀ v ∈ d.vehicles, ∀ i ∈ d.nodes, ∀ j ∈ d.nodes, (i, j) ∈ arcosV d v →
      s.fuel v j ≥ s.fuel v i - d.consumo i j + s.refuel v j -
        (d.fuel_cap v + d.consumo i j) * (1 - bx (s.x v i j))) ∧
  -- R10 `no_negatividad_combustible_rule`
  (∀ v ∈ d.vehicles, ∀ i ∈ d.nodes, 0 ≤ s.fuel v i) ∧
  -- R11 `capacidad_combustible_rule`
  (∀ v ∈ d.vehicles, ∀ i ∈ d.nodes, s.fuel v i ≤ d.fuel_cap v) ∧
  -- R12 `recarga_solo_estaciones_rule`: refuel forced to 0 at clients only
  (∀ v ∈ d.vehicles, ∀ c ∈ d.clients, s.refuel v c = 0) ∧
  -- R13 `limite_recarga_rule`
  (∀ v ∈ d.vehicles, ∀ i ∈ d.nodes, s.refuel v i ≤ d.fuel_cap v)

/-- The fuel-cost component of the Case 3 objective (`objetivo_rule`,
lines 249–250): it sums over stations only. -/
def caso3FuelCost (d : Caso3Data) (s : Caso3Sol) : ℚ :=
  (d.vehicles.map fun v =>
    (d.stations.map fun st => d.fuel_price st * s.refuel v st).sum).sum

/-- The full Case 3 objective (`objetivo_rule`, lines 233–257): fixed cost,
distance cost, station fuel cost, toll cost. -/
def caso3Objective (d : Caso3Data) (s : Caso3Sol) : ℚ :=
  (d.vehicles.map fun v => d.cost_fixed * bx (s.y v)).sum +
  (d.vehicles.map fun v =>
    ((arcosV d v).map fun p =>
      d.cost_km * d.dist p.1 p.2 * bx (s.x v p.1 p.2)).sum).sum +
  caso3FuelCost d s +
  (d.vehicles.map fun v =>
    (((arcosV d v).filter fun p => p ∈ d.tollArcs).map fun p =>
      d.toll_cost p.1 p.2 * bx (s.x v p.1 p.2)).sum).sum

/-! ## Case 3 route decoder (`extraer_solucion_caso3`, lines 592–625)

The Python decoder first collects `arcos_activos[v]`, then walks from the
depot for at most `len(arcos_activos[v]) + 1` loop entries; each entry scans
the active arcs in order for the first arc out of the current node whose
target is unvisited or is the depot. -/

/-- The selected arcs of vehicle `v`, in `A_v` order. -/
def caso3ArcosActivos (d : Caso3Data) (s : Caso3Sol) (v : ℕ) :
    List (ℕ × ℕ) :=
  (arcosV d v).filter fun p => s.x v p.1 p.2

/-- One successor search of the Case 3 decoder over the active arcs. -/
def caso3Next (active : List (ℕ × ℕ)) (depot : ℕ) (visit : List ℕ)
    (cur : ℕ) : Option ℕ :=
  (active.find? fun p =>
    decide (p.1 = cur) && (!(visit.contains p.2) || decide (p.2 = depot))).map
    Prod.snd

/-- The Case 3 decoding loop; the fuel argument counts the remaining
permitted loop entries (`max_iteraciones - iteracion`). -/
def caso3WalkAux (active : List (ℕ × ℕ)) (depot : ℕ) :
    ℕ → List ℕ → ℕ → List ℕ
  | 0, _, _ => []
  | fuel + 1, visit, cur =>
    match caso3Next active depot visit cur with
    | none => []
    | some j =>
      if j = depot then [j]
      else j :: caso3WalkAux active depot fuel (j :: visit) j

/-- The decoded route of vehicle `v` in `extraer_solucion_caso3`, with the
source's iteration cap `len(arcos_activos[v]) + 1`. -/
def decodeCaso3 (d : Caso3Data) (s : Caso3Sol) (v : ℕ) : List ℕ :=
  d.depot :: caso3WalkAux (caso3ArcosActivos d s v) d.depot
    ((caso3ArcosActivos d s v).length + 1) [d.depot] d.depot

/-- The number of active arcs whose target is still unvisited: a measure
that bounds the remaining Case 3 loop entries. -/
def caso3ArcPool (active : List (ℕ × ℕ)) (visit : List ℕ) : ℕ :=
  (active.filter fun p => !(visit.contains p.2)).length

/-- The number of still-unvisited nodes, for the network-size bound on the
Case 3 loop. -/
def caso3NodePool (nodes : List ℕ) (visit : List ℕ) : ℕ :=
  (nodes.filter fun a => !(visit.contains a)).length

/-! ## Concrete Case 3 instance -/

/-- Depot `0`, client `1`, station `2`, one vehicle with a 10 gal tank; the
arcs `0→1`, `1→0` and `1→2` exist, the return arc `1→0` consuming 10 gal and
the others 1 gal. -/
def inst3 : Caso3Data where
  depot := 0
  clients := [1]
  stations := [2]
  nodes := [0, 1, 2]
  vehicles := [0]
  arcs := [(0, 1), (1, 0), (1, 2)]
  restricted := fun _ _ _ => false
  tollArcs := []
  demanda := fun n => if n = 1 then 5 else 0
  dist := fun _ _ => 1
  consumo := fun i j => if i = 1 ∧ j = 0 then 10 else 1
  -- the return arc consumes a full tank, every other arc 1 gal
  fuel_price := fun _ => 50
  toll_cost := fun _ _ => 0
  load_cap := fun _ => 100
  fuel_cap := fun _ => 10
  cost_fixed := 100
  cost_km := 2

/-- The Case 3 assignment driving `0 → 1 → 0` with a full tank at the depot
and a refuel of `r` gallons at the depot. -/
def sol3 (r : ℚ) : Caso3Sol where
  x := fun _ i j => decide ((i = 0 ∧ j = 1) ∨ (i = 1 ∧ j = 0))
  y := fun _ => true
  u := fun _ _ => 0
  carga := fun _ _ => 0
  fuel := fun _ _ => 10
  refuel := fun _ i => if i = 0 then r else 0

/-- The Case 3 assignment driving `0 → 1 → 0` with only 1 gal in the tank at
depot departure — far below the 10 gal tank capacity. -/
def sol3low : Caso3Sol where
  x := fun _ i j => decide ((i = 0 ∧ j = 1) ∨ (i = 1 ∧ j = 0))
  y := fun _ => true
  u := fun _ _ => 0
  carga := fun _ _ => 0
  fuel := fun _ i => if i = 0 then 1 else 0
  refuel := fun _ _ => 0

/-- A dangling selected-arc set on `inst3`: only the arc `0 → 1` is
selected, so the Case 3 decoding walk reaches node `1` and finds no
outgoing selected arc. -/
def sol3dangle : Caso3Sol where
  x := fun _ i j => decide (i = 0 ∧ j = 1)
  y := fun _ => true
  u := fun _ _ => 0
  carga := fun _ _ => 0
  fuel := fun _ i => if i = 0 then 1 else 0
  refuel := fun _ _ => 0

/-- Modelled from the spec (§4.1 item 5): the fuel-balance inequality
`fuel(v,j) ≥ fuel(v,i) − consumption(i,j) + refuel(v,j) − M·(1 − arc(v,i,j))`
with `M` sized as tank capacity plus the arc's consumption.  Used to compare
the constraint families generated by the Case 2 and Case 3 builders against
the specification's wording. -/
def specFuelBalance (tank cons fi fj rj xq : ℚ) : Prop :=
  fj ≥ fi - cons + rj - (tank + cons) * (1 - xq)

/-! # Theorems -/

/-! ## Basic facts -/

theorem bx_nonneg (b : Bool) : 0 ≤ bx b := by
  cases b <;> simp [bx]

theorem bx_le_one (b : Bool) : bx b ≤ 1 := by
  cases b <;> simp [bx]

theorem bx_eq_one (b : Bool) (h : b = true) : bx b = 1 := by
  simp [bx, h]

theorem exSol_sat : caso2Sat exInst exSol := by
  norm_num [caso2Sat, exInst, exSol, arcos2, consumo2, bx]

theorem cycSol_sat : caso2Sat cycInst cycSol := by
  norm_num [caso2Sat, cycInst, cycSol, arcos2, consumo2, bx]

theorem sol7_sat : caso1Sat inst7 sol7 := by
  norm_num [caso1Sat, inst7, sol7, arcs1, indegQ, bx]

theorem sol3_sat (r : ℚ) (h0 : 0 ≤ r) (h10 : r ≤ 10) :
    caso3Sat inst3 (sol3 r) := by
  norm_num [caso3Sat, inst3, sol3, arcosV, bx]
  exact ⟨h0, h10⟩

theorem sol3low_sat : caso3Sat inst3 sol3low := by
  norm_num [caso3Sat, inst3, sol3low, arcosV, bx]

theorem sol5ok_sat : caso1Sat inst5 sol5ok := by
  norm_num [caso1Sat, inst5, sol5ok, arcs1, indegQ, bx]

theorem simFuel_exInst :
    simFuelRoute exInst exSol 0 [0, 1, 0] = [-10, -30] := by
  norm_num [simFuelRoute, simFuel, consumo2, exInst, exSol]

/-- C1: there is an assignment satisfying the full Case 2 constraint set
whose decoded route has a negative simulated fuel level. -/
theorem C1_fuel_balance_violated :
    caso2Sat exInst exSol ∧ exSol.y 0 = true ∧
    decodeCaso2 exInst exSol 0 = [0, 1, 0] ∧
    ∃ q ∈ simFuelRoute exInst exSol 0 [0, 1, 0], q < 0 := by
  refine ⟨exSol_sat, rfl, by decide, ⟨-10, ?_, by norm_num⟩⟩
  rw [simFuel_exInst]
  exact List.mem_cons_self _ _

/-- C2: on a dangling selected-arc set the Case 2 decoder fabricates a
depot-closed route and the Case 1 decoder returns a non-closed route record;
neither reports a decode failure. -/
theorem C2_dangling_fabricates_route :
    decodeCaso2 exInst danglingSol 0 = [0, 1, 0] ∧
    (∀ i ∈ exInst.nodes, danglingSol.x 0 i 0 = false) ∧
    reconstruirRuta inst5 sol5dangle 0 = [0, 1] ∧
    reconstruirRuta inst5 sol5dangle 0 ≠ [] := by
  refine ⟨by decide, by decide, by decide, by decide⟩

/-- C3 counterexample: in the Case 2 variant, the isolated station cycle
`2→3→2`, which never touches the depot, violates no constraint: the full
Case 2 constraint set is satisfied while both cycle arcs are selected. -/
theorem C3_caso2_isolated_cycle_feasible :
    caso2Sat cycInst cycSol ∧
    cycSol.x 0 2 3 = true ∧ cycSol.x 0 3 2 = true ∧
    decodeCaso2 cycInst cycSol 0 = [0, 1, 0] := by
  exact ⟨cycSol_sat, by decide, by decide, by decide⟩

/-- C4 counterexample: a satisfying Case 3 assignment of a used vehicle whose
fuel at depot departure is strictly below (hence not equal to) its tank
capacity — the Case 3 constraint `limite_combustible_inicial_rule` is an
upper bound only. -/
theorem C4_caso3_depot_fuel_below_capacity :
    caso3Sat inst3 sol3low ∧ sol3low.y 0 = true ∧
    sol3low.fuel 0 inst3.depot ≠ inst3.fuel_cap 0 := by
  refine ⟨sol3low_sat, rfl, by norm_num [sol3low, inst3]⟩

/-- C4 (amended): in Case 2 every satisfying assignment has depot fuel equal
to the tank capacity, but in Case 3 the constraints only force depot fuel
`≤` capacity, and a satisfying assignment with depot fuel strictly below
capacity exists. -/
theorem C4_depot_fuel :
    (∀ (d : Caso2Data) (s : Caso2Sol), caso2Sat d s → ∀ v ∈ d.vehicles,
      s.combustible v d.depot = d.fuel_cap v) ∧
    (∀ (d : Caso3Data) (s : Caso3Sol), caso3Sat d s → ∀ v ∈ d.vehicles,
      s.fuel v d.depot ≤ d.fuel_cap v) ∧
    (caso3Sat inst3 sol3low ∧
      sol3low.fuel 0 inst3.depot < inst3.fuel_cap 0) := by
  refine ⟨?_, ?_, sol3low_sat, by norm_num [sol3low, inst3]⟩
  · intro d s hs
    exact hs.2.2.2.2.2.2.2.2.1
  · intro d s hs
    exact hs.2.2.2.2.2.2.2.2.2.1

/-- Witness for `C4_depot_fuel` at the concrete instances of both cases. -/
theorem C4_depot_fuel_witness :
    (caso2Sat exInst exSol ∧
      exSol.combustible 0 exInst.depot = exInst.fuel_cap 0) ∧
    (caso3Sat inst3 sol3low ∧
      sol3low.fuel 0 inst3.depot ≤ inst3.fuel_cap 0) :=
  ⟨⟨exSol_sat, C4_depot_fuel.1 exInst exSol exSol_sat 0 (by decide)⟩,
   ⟨sol3low_sat, C4_depot_fuel.2.1 inst3 sol3low sol3low_sat 0 (by decide)⟩⟩

/-- C3 (amended): Case 1 imposes the MTZ family exactly as claimed, per
(vehicle, client) with coefficient `|CLIENTS|` on client-to-client arcs;
Case 3 imposes an MTZ family per (vehicle, node) with coefficient `|NODES|`
on non-depot arcs; Case 2 imposes none (see the counterexample). -/
theorem C3_mtz_cases :
    (∀ (d : Caso1Data) (s : Caso1Sol), caso1Sat d s →
      ∀ v ∈ d.vehicles, ∀ i ∈ d.clients, ∀ j ∈ d.clients, i ≠ j →
        s.u v i - s.u v j + (d.clients.length : ℚ) * bx (s.x v i j) ≤
          (d.clients.length : ℚ) - 1) ∧
    (∀ (d : Caso3Data) (s : Caso3Sol), caso3Sat d s →
      ∀ v ∈ d.vehicles, ∀ i ∈ d.nodes, ∀ j ∈ d.nodes,
        i ≠ d.depot → j ≠ d.depot → (i, j) ∈ arcosV d v →
        s.u v i - s.u v j + (d.nodes.length : ℚ) * bx (s.x v i j) ≤
          (d.nodes.length : ℚ) - 1) := by
  constructor
  · intro d s hs
    exact hs.2.2.2.2.2.2.2.1
  · intro d s hs
    exact hs.2.2.2.2.2.2.1

/-- Witness for `C3_mtz_cases` at concrete satisfying assignments of both
fuel-free and fuel-aware variants. -/
theorem C3_mtz_cases_witness :
    (caso1Sat inst5 sol5ok ∧
      sol5ok.u 0 1 - sol5ok.u 0 2 +
        (inst5.clients.length : ℚ) * bx (sol5ok.x 0 1 2) ≤
        (inst5.clients.length : ℚ) - 1) ∧
    (caso3Sat inst3 sol3low ∧
      sol3low.u 0 1 - sol3low.u 0 2 +
        (inst3.nodes.length : ℚ) * bx (sol3low.x 0 1 2) ≤
        (inst3.nodes.length : ℚ) - 1) :=
  ⟨⟨sol5ok_sat,
    C3_mtz_cases.1 inst5 sol5ok sol5ok_sat 0 (by decide) 1 (by decide) 2
      (by decide) (by decide)⟩,
   ⟨sol3low_sat,
    C3_mtz_cases.2 inst3 sol3low sol3low_sat 0 (by decide) 1 (by decide) 2
      (by decide) (by decide) (by decide) (by decide)⟩⟩

/-- C6: in both fuel-aware builders (Cases 2 and 3), the generated
fuel-balance constraint is exactly the specification's inequality with the
big-M equal to the vehicle's tank capacity plus that arc's consumption. -/
theorem C6_bigM_exact :
    (∀ (d : Caso2Data) (s : Caso2Sol), caso2Sat d s →
      ∀ v ∈ d.vehicles, ∀ p ∈ arcos2 d,
        specFuelBalance (d.fuel_cap v) (consumo2 d p.1 p.2)
          (s.combustible v p.1) (s.combustible v p.2) (s.recarga v p.2)
          (bx (s.x v p.1 p.2))) ∧
    (∀ (d : Caso3Data) (s : Caso3Sol), caso3Sat d s →
      ∀ v ∈ d.vehicles, ∀ i ∈ d.nodes, ∀ j ∈ d.nodes, (i, j) ∈ arcosV d v →
        specFuelBalance (d.fuel_cap v) (d.consumo i j)
          (s.fuel v i) (s.fuel v j) (s.refuel v j) (bx (s.x v i j))) := by
  constructor
  · intro d s hs
    exact hs.2.2.2.2.2.2.2.2.2.1
  · intro d s hs
    exact hs.2.2.2.2.2.2.2.2.2.2.1

/-- Witness for `C6_bigM_exact` at concrete satisfying assignments. -/
theorem C6_bigM_exact_witness :
    (caso2Sat exInst exSol ∧
      specFuelBalance (exInst.fuel_cap 0) (consumo2 exInst 0 1)
        (exSol.combustible 0 0) (exSol.combustible 0 1) (exSol.recarga 0 1)
        (bx (exSol.x 0 0 1))) ∧
    (caso3Sat inst3 sol3low ∧
      specFuelBalance (inst3.fuel_cap 0) (inst3.consumo 1 0)
        (sol3low.fuel 0 1) (sol3low.fuel 0 0) (sol3low.refuel 0 0)
        (bx (sol3low.x 0 1 0))) :=
  ⟨⟨exSol_sat, C6_bigM_exact.1 exInst exSol exSol_sat 0 (by decide) (0, 1)
      (by decide)⟩,
   ⟨sol3low_sat, C6_bigM_exact.2 inst3 sol3low sol3low_sat 0 (by decide) 1
      (by decide) 0 (by decide) (by decide)⟩⟩

/-- C8: the fuel-price scaling applied when building the Case 2 objective
(`init_fuel_price`, factor `scale`) is exactly inverted by the
`fuel_scale = 1/scale` rescaling of `extraer_solucion_caso2`, so the
reported per-node fuel cost equals the unscaled price times the refuel
amount, independently of the chosen positive scale factor. -/
theorem C8_fuel_scale_inverts (d : Caso2Data) (i : ℕ) (r scale : ℚ)
    (hs : 0 < scale) :
    initFuelPrice d scale i * r * fuelScale scale =
      initFuelPrice d 1 i * r := by
  have hne : scale ≠ 0 := ne_of_gt hs
  have h1 : scale * (1 / scale) = 1 := by
    rw [one_div]
    exact mul_inv_cancel₀ hne
  have key : ∀ p : ℚ, p * scale * r * (1 / scale) = p * 1 * r := by
    intro p
    calc p * scale * r * (1 / scale) = p * r * (scale * (1 / scale)) := by
          ring
      _ = p * 1 * r := by rw [h1]; ring
  unfold initFuelPrice fuelScale
  split_ifs <;> exact key _

/-- Witness for `C8_fuel_scale_inverts` at a station of the concrete
instance with the source's default factor `0.001`. -/
theorem C8_fuel_scale_inverts_witness :
    (0 : ℚ) < 1 / 1000 ∧
    initFuelPrice cycInst (1 / 1000) 2 * 7 * fuelScale (1 / 1000) =
      initFuelPrice cycInst 1 2 * 7 :=
  ⟨by norm_num, C8_fuel_scale_inverts cycInst 2 7 (1 / 1000) (by norm_num)⟩

/-- C10: in Case 3 the zero-refuel constraint is imposed only on client
nodes, the objective's fuel-cost term sums over stations only, and for every
amount `r` up to the tank capacity there is a satisfying assignment in which
the vehicle refuels `r` gallons at the depot at zero objective cost. -/
theorem C10_caso3_depot_refuel_free :
    (∀ (d : Caso3Data) (s : Caso3Sol), caso3Sat d s →
      ∀ v ∈ d.vehicles, ∀ c ∈ d.clients, s.refuel v c = 0) ∧
    (∀ r : ℚ, 0 ≤ r → r ≤ inst3.fuel_cap 0 →
      caso3Sat inst3 (sol3 r) ∧ (sol3 r).refuel 0 inst3.depot = r ∧
      caso3FuelCost inst3 (sol3 r) = 0 ∧
      caso3Objective inst3 (sol3 r) = caso3Objective inst3 (sol3 0)) := by
  constructor
  · intro d s hs
    exact hs.2.2.2.2.2.2.2.2.2.2.2.2.2.1
  · intro r h0 h10
    have h10q : r ≤ 10 := by
      simpa [inst3] using h10
    refine ⟨sol3_sat r h0 h10q, by simp [sol3, inst3], ?_, ?_⟩
    · norm_num [caso3FuelCost, inst3, sol3]
    · norm_num [caso3Objective, caso3FuelCost, inst3, sol3, arcosV, bx]

/-- Witness for `C10_caso3_depot_refuel_free`: a depot refuel of 7 gallons,
plus the forced zero refuel at the client of the same assignment. -/
theorem C10_caso3_depot_refuel_free_witness :
    (0 : ℚ) ≤ 7 ∧ (7 : ℚ) ≤ inst3.fuel_cap 0 ∧
    (caso3Sat inst3 (sol3 7) ∧ (sol3 7).refuel 0 inst3.depot = 7 ∧
      caso3FuelCost inst3 (sol3 7) = 0 ∧
      caso3Objective inst3 (sol3 7) = caso3Objective inst3 (sol3 0)) ∧
    (sol3 7).refuel 0 1 = 0 :=
  ⟨by norm_num, by norm_num [inst3],
    C10_caso3_depot_refuel_free.2 7 (by norm_num) (by norm_num [inst3]),
    C10_caso3_depot_refuel_free.1 inst3 (sol3 7)
      (sol3_sat 7 (by norm_num) (by norm_num)) 0 (by decide) 1 (by decide)⟩

/-! ## List helper lemmas -/

theorem contains_false_not_mem {l : List ℕ} {a : ℕ}
    (h : l.contains a = false) : a ∉ l := by
  intro hmem
  simp [hmem] at h

theorem filter_length_le {α : Type} (p q : α → Bool) (l : List α)
    (hpq : ∀ a ∈ l, p a = true → q a = true) :
    (l.filter p).length ≤ (l.filter q).length := by
  induction l with
  | nil => simp
  | cons h t ih =>
    have iht := ih fun a ha => hpq a (List.mem_cons_of_mem _ ha)
    cases hp : p h with
    | true =>
      rw [List.filter_cons_of_pos hp,
        List.filter_cons_of_pos (hpq h (List.mem_cons_self _ _) hp)]
      exact Nat.succ_le_succ iht
    | false =>
      rw [List.filter_cons_of_neg (by simp [hp])]
      cases hq : q h with
      | true =>
        rw [List.filter_cons_of_pos hq]
        exact Nat.le_succ_of_le iht
      | false =>
        rw [List.filter_cons_of_neg (by simp [hq])]
        exact iht

theorem filter_length_lt {α : Type} (p q : α → Bool) (l : List α)
    (hpq : ∀ a ∈ l, p a = true → q a = true) (j : α) (hj : j ∈ l)
    (hq : q j = true) (hp : p j = false) :
    (l.filter p).length < (l.filter q).length := by
  induction l with
  | nil => cases hj
  | cons h t ih =>
    have hpqt : ∀ a ∈ t, p a = true → q a = true :=
      fun a ha => hpq a (List.mem_cons_of_mem _ ha)
    rcases List.mem_cons.mp hj with rfl | hjt
    · rw [List.filter_cons_of_neg (by simp [hp]), List.filter_cons_of_pos hq]
      exact Nat.lt_succ_of_le (filter_length_le p q t hpqt)
    · cases hph : p h with
      | true =>
        rw [List.filter_cons_of_pos hph,
          List.filter_cons_of_pos (hpq h (List.mem_cons_self _ _) hph)]
        exact Nat.succ_lt_succ (ih hpqt hjt)
      | false =>
        rw [List.filter_cons_of_neg (by simp [hph])]
        cases hqh : q h with
        | true =>
          rw [List.filter_cons_of_pos hqh]
          exact Nat.lt_succ_of_lt (ih hpqt hjt)
        | false =>
          rw [List.filter_cons_of_neg (by simp [hqh])]
          exact ih hpqt hjt

/-! ## Case 2 decoder walk lemmas -/

theorem caso2Next_some (d : Caso2Data) (s : Caso2Sol) (v : ℕ)
    (visit : List ℕ) (cur j : ℕ)
    (h : caso2Next d s v visit cur = some j) :
    j ∈ d.nodes ∧ visit.contains j = false ∧ (cur, j) ∈ arcos2 d ∧
      s.x v cur j = true := by
  have hmem := List.mem_of_find?_eq_some h
  have hpred := List.find?_some h
  simp only [Bool.and_eq_true, Bool.not_eq_true', decide_eq_true_eq] at hpred
  exact ⟨hmem, hpred.1.1, hpred.1.2, hpred.2⟩

theorem caso2Pool_shrink (d : Caso2Data) {visit : List ℕ} {j : ℕ}
    (hjn : j ∈ d.nodes) (hjv : visit.contains j = false) :
    caso2Pool d (j :: visit) < caso2Pool d visit := by
  refine filter_length_lt _ _ _ ?_ j hjn ?_ ?_
  · intro a _ ha
    simp only [Bool.not_eq_true', List.contains_cons] at ha ⊢
    exact (Bool.or_eq_false_iff.mp ha).2
  · rw [hjv]
    rfl
  · simp [List.contains_cons]

theorem caso2WalkAux_stable (d : Caso2Data) (s : Caso2Sol) (v : ℕ) :
    ∀ f g (visit : List ℕ) (cur : ℕ), caso2Pool d visit < f →
      caso2Pool d visit < g →
      caso2WalkAux d s v f visit cur = caso2WalkAux d s v g visit cur := by
  intro f
  induction f with
  | zero =>
    intro g visit cur hf
    exact absurd hf (Nat.not_lt_zero _)
  | succ f ih =>
    intro g visit cur hf hg
    cases g with
    | zero => exact absurd hg (Nat.not_lt_zero _)
    | succ g =>
      cases hnext : caso2Next d s v visit cur with
      | none => simp only [caso2WalkAux, hnext]
      | some j =>
        simp only [caso2WalkAux, hnext]
        by_cases hj : j = d.depot
        · simp [hj]
        · simp only [if_neg hj]
          obtain ⟨hjn, hjv, _, _⟩ := caso2Next_some d s v visit cur j hnext
          have hlt := caso2Pool_shrink d hjn hjv
          rw [ih g (j :: visit) j (by omega) (by omega)]

theorem caso2WalkAux_good (d : Caso2Data) (s : Caso2Sol) (v : ℕ) :
    ∀ f (visit : List ℕ) (cur : ℕ), caso2Pool d visit < f →
      d.depot ∈ visit →
      ∃ l, caso2WalkAux d s v f visit cur = l ++ [d.depot] ∧ l.Nodup ∧
        ∀ a ∈ l, a ∉ visit := by
  intro f
  induction f with
  | zero =>
    intro visit cur hf
    exact absurd hf (Nat.not_lt_zero _)
  | succ f ih =>
    intro visit cur hf hdep
    cases hnext : caso2Next d s v visit cur with
    | none => exact ⟨[], by simp [caso2WalkAux, hnext], List.nodup_nil, by simp⟩
    | some j =>
      obtain ⟨hjn, hjv, _, _⟩ := caso2Next_some d s v visit cur j hnext
      have hjvis : j ∉ visit := contains_false_not_mem hjv
      have hjd : j ≠ d.depot := fun h => hjvis (h ▸ hdep)
      have hlt := caso2Pool_shrink d hjn hjv
      obtain ⟨l, hl, hnd, hav⟩ :=
        ih (j :: visit) j (by omega) (List.mem_cons_of_mem _ hdep)
      refine ⟨j :: l, ?_, ?_, ?_⟩
      · simp [caso2WalkAux, hnext, hjd, hl]
      · exact List.nodup_cons.mpr
          ⟨fun hjl => (hav j hjl) (List.mem_cons_self _ _), hnd⟩
      · intro a ha
        rcases List.mem_cons.mp ha with rfl | hal
        · exact hjvis
        · exact fun hin => hav a hal (List.mem_cons_of_mem _ hin)

/-- The Case 2 decoder always returns a route that begins and ends at the
depot and repeats no intermediate node. -/
theorem decodeCaso2_route_shape (d : Caso2Data) (s : Caso2Sol) (v : ℕ) :
    (decodeCaso2 d s v).head? = some d.depot ∧
    (decodeCaso2 d s v).getLast? = some d.depot ∧
    (((decodeCaso2 d s v).drop 1).dropLast).Nodup ∧
    d.depot ∉ ((decodeCaso2 d s v).drop 1).dropLast := by
  have hpool : caso2Pool d [d.depot] < d.nodes.length + 1 :=
    Nat.lt_succ_of_le (List.length_filter_le _ _)
  obtain ⟨l, hl, hnd, hav⟩ :=
    caso2WalkAux_good d s v (d.nodes.length + 1) [d.depot] d.depot hpool
      (List.mem_singleton.mpr rfl)
  unfold decodeCaso2
  rw [hl]
  refine ⟨rfl, ?_, ?_, ?_⟩
  · rw [show d.depot :: (l ++ [d.depot]) = (d.depot :: l) ++ [d.depot] from
      rfl]
    exact List.getLast?_concat _
  · simp only [List.drop_succ_cons, List.drop_zero, List.dropLast_concat]
    exact hnd
  · simp only [List.drop_succ_cons, List.drop_zero, List.dropLast_concat]
    exact fun h => hav d.depot h (List.mem_singleton.mpr rfl)

/-! ## Rational sum helper lemmas -/

theorem sum_map_nonneg {α : Type} (l : List α) (f : α → ℚ)
    (hf : ∀ a ∈ l, 0 ≤ f a) : 0 ≤ (l.map f).sum := by
  apply List.sum_nonneg
  intro q hq
  rcases List.mem_map.mp hq with ⟨b, hb, rfl⟩
  exact hf b hb

theorem single_le_sum_map {α : Type} (l : List α) (f : α → ℚ)
    (hf : ∀ a ∈ l, 0 ≤ f a) (a : α) (ha : a ∈ l) : f a ≤ (l.map f).sum := by
  induction l with
  | nil => cases ha
  | cons h t ih =>
    simp only [List.map_cons, List.sum_cons]
    have hft : ∀ b ∈ t, 0 ≤ f b := fun b hb => hf b (List.mem_cons_of_mem _ hb)
    rcases List.mem_cons.mp ha with rfl | hat
    · have := sum_map_nonneg t f hft
      linarith
    · have h0 : 0 ≤ f h := hf h (List.mem_cons_self _ _)
      have := ih hft hat
      linarith

theorem two_le_sum_map {α : Type} (l : List α) (f : α → ℚ)
    (hf : ∀ a ∈ l, 0 ≤ f a) (a b : α) (hab : a ≠ b) (ha : a ∈ l)
    (hb : b ∈ l) : f a + f b ≤ (l.map f).sum := by
  induction l with
  | nil => cases ha
  | cons h t ih =>
    simp only [List.map_cons, List.sum_cons]
    have hft : ∀ c ∈ t, 0 ≤ f c := fun c hc => hf c (List.mem_cons_of_mem _ hc)
    rcases List.mem_cons.mp ha with rfl | hat
    · have hbt : b ∈ t := by
        rcases List.mem_cons.mp hb with rfl | h2
        · exact absurd rfl hab
        · exact h2
      have := single_le_sum_map t f hft b hbt
      linarith
    · rcases List.mem_cons.mp hb with rfl | hbt
      · have := single_le_sum_map t f hft a hat
        linarith
      · have h0 : 0 ≤ f h := hf h (List.mem_cons_self _ _)
        have := ih hft hat hbt
        linarith

/-! ## Case 1 in-degree facts -/

theorem indegQ_nonneg (d : Caso1Data) (s : Caso1Sol) (v c : ℕ) :
    0 ≤ indegQ d s v c :=
  sum_map_nonneg _ _ fun _ _ => bx_nonneg _

theorem indegQ_le_one (d : Caso1Data) (s : Caso1Sol) (hs : caso1Sat d s)
    (v : ℕ) (hv : v ∈ d.vehicles) (c : ℕ) (hc : c ∈ d.clients) :
    indegQ d s v c ≤ 1 := by
  have h1 := hs.2.1 c hc
  have h2 := single_le_sum_map d.vehicles (fun w => indegQ d s w c)
    (fun w _ => indegQ_nonneg d s w c) v hv
  linarith

theorem indegQ_ge_one (d : Caso1Data) (s : Caso1Sol) (v c p : ℕ)
    (hp : (p, c) ∈ arcs1 d) (hx : s.x v p c = true) :
    1 ≤ indegQ d s v c := by
  have hmemf : (p, c) ∈ (arcs1 d).filter fun q => q.2 = c :=
    List.mem_filter.mpr ⟨hp, by simp⟩
  have h := single_le_sum_map _ (fun q : ℕ × ℕ => bx (s.x v q.1 q.2))
    (fun q _ => bx_nonneg _) (p, c) hmemf
  simpa [indegQ, bx, hx] using h

theorem indegQ_ge_two (d : Caso1Data) (s : Caso1Sol) (v c p1 p2 : ℕ)
    (hne : p1 ≠ p2) (h1 : (p1, c) ∈ arcs1 d) (hx1 : s.x v p1 c = true)
    (h2 : (p2, c) ∈ arcs1 d) (hx2 : s.x v p2 c = true) :
    2 ≤ indegQ d s v c := by
  have hm1 : (p1, c) ∈ (arcs1 d).filter fun q => q.2 = c :=
    List.mem_filter.mpr ⟨h1, by simp⟩
  have hm2 : (p2, c) ∈ (arcs1 d).filter fun q => q.2 = c :=
    List.mem_filter.mpr ⟨h2, by simp⟩
  have hpair : ((p1, c) : ℕ × ℕ) ≠ (p2, c) := by
    intro h
    exact hne (congrArg Prod.fst h)
  have h := two_le_sum_map _ (fun q : ℕ × ℕ => bx (s.x v q.1 q.2))
    (fun q _ => bx_nonneg _) (p1, c) (p2, c) hpair hm1 hm2
  have h2 : (1 : ℚ) + 1 = 2 := by norm_num
  simpa [indegQ, bx, hx1, hx2, h2] using h

/-! ## Structure of the Case 1 arc list -/

theorem arcs1_target (d : Caso1Data) {i j : ℕ} (h : (i, j) ∈ arcs1 d) :
    j ∈ d.clients ∨ j = d.depot := by
  unfold arcs1 at h
  rcases List.mem_append.mp h with h | h
  · rcases List.mem_append.mp h with h | h
    · rcases List.mem_map.mp h with ⟨c, hc, heq⟩
      injection heq with h1 h2
      subst h2
      exact Or.inl hc
    · rcases List.mem_flatMap.mp h with ⟨a, _, hmem⟩
      rcases List.mem_map.mp hmem with ⟨b, hb, heq⟩
      injection heq with h1 h2
      subst h2
      exact Or.inl (List.mem_of_mem_filter hb)
  · rcases List.mem_map.mp h with ⟨c, _, heq⟩
    injection heq with h1 h2
    exact Or.inr h2.symm

theorem arcs1_no_self (d : Caso1Data) (hd : d.depot ∉ d.clients) (i : ℕ) :
    (i, i) ∉ arcs1 d := by
  intro h
  unfold arcs1 at h
  rcases List.mem_append.mp h with h | h
  · rcases List.mem_append.mp h with h | h
    · rcases List.mem_map.mp h with ⟨c, hc, heq⟩
      injection heq with h1 h2
      rw [h2, ← h1] at hc
      exact hd hc
    · rcases List.mem_flatMap.mp h with ⟨a, _, hmem⟩
      rcases List.mem_map.mp hmem with ⟨b, hb, heq⟩
      injection heq with h1 h2
      have hba := List.of_mem_filter hb
      simp only [decide_eq_true_eq] at hba
      exact hba (by rw [h2, h1])
  · rcases List.mem_map.mp h with ⟨c, hc, heq⟩
    injection heq with h1 h2
    rw [h1, ← h2] at hc
    exact hd hc

/-! ## Case 1 decoder successor facts -/

theorem activeSucc_some (d : Caso1Data) (s : Caso1Sol) (v cur j : ℕ)
    (h : activeSucc d s v cur = some j) :
    (cur, j) ∈ arcs1 d ∧ s.x v cur j = true := by
  unfold activeSucc at h
  rcases Option.map_eq_some'.mp h with ⟨p, hp, hpj⟩
  have hpmem : p ∈ (arcs1 d).filter fun q =>
      decide (q.1 = cur) && s.x v q.1 q.2 := List.mem_of_mem_getLast? hp
  obtain ⟨harc, hcond⟩ := List.mem_filter.mp hpmem
  simp only [Bool.and_eq_true, decide_eq_true_eq] at hcond
  obtain ⟨h1, h2⟩ := hcond
  subst hpj
  constructor
  · rw [← h1]
    exact harc
  · rw [← h1]
    exact h2

/-! ## The Case 1 decoding walk visits distinct clients

Along the walk of `reconstruir_ruta`, under the Case 1 constraints, every
non-depot node appended is a client with a selected incoming arc, and no
client repeats: a repeat would give a client two distinct selected
predecessors, contradicting the assignment constraint. -/

theorem caso1WalkAux_good (d : Caso1Data) (s : Caso1Sol) (v : ℕ)
    (hd : d.depot ∉ d.clients)
    (hK : ∀ c ∈ d.clients, indegQ d s v c ≤ 1) :
    ∀ (f : ℕ) (path : List ℕ) (cur : ℕ),
      path.head? = some d.depot → path.getLast? = some cur →
      path.Nodup → (∀ a ∈ path, a ≠ d.depot → a ∈ d.clients) →
      List.Chain' (caso1Step d s v) path →
      ((path ++ caso1WalkAux d s v f cur).filter fun a =>
        decide (a ≠ d.depot)).Nodup ∧
      (∀ a ∈ caso1WalkAux d s v f cur, a ≠ d.depot →
        a ∈ d.clients ∧ ∃ p, (p, a) ∈ arcs1 d ∧ s.x v p a = true) := by
  intro f
  induction f with
  | zero =>
    intro path cur _ _ hnd _ _
    refine ⟨?_, by simp [caso1WalkAux]⟩
    simp only [caso1WalkAux, List.append_nil]
    exact hnd.filter _
  | succ f ih =>
    intro path cur hhead hlast hnd hmem hchain
    cases hnext : activeSucc d s v cur with
    | none =>
      refine ⟨?_, by simp [caso1WalkAux, hnext]⟩
      simp only [caso1WalkAux, hnext, List.append_nil]
      exact hnd.filter _
    | some j =>
      obtain ⟨harc, hx⟩ := activeSucc_some d s v cur j hnext
      by_cases hj : j = d.depot
      · subst hj
        simp only [caso1WalkAux, hnext, eq_self_iff_true, if_true]
        constructor
        · have heq : (path ++ [d.depot]).filter
              (fun a => decide (a ≠ d.depot)) =
              path.filter fun a => decide (a ≠ d.depot) := by
            simp
          rw [heq]
          exact hnd.filter _
        · intro a ha had
          rw [List.mem_singleton.mp ha] at had
          exact absurd rfl had
      · have hjc : j ∈ d.clients := by
          rcases arcs1_target d harc with h | h
          · exact h
          · exact absurd h hj
        have hpne : path ≠ [] := by
          intro h0
          rw [h0] at hhead
          cases hhead
        -- the crux: `j` cannot already be on the path
        have hjpath : j ∉ path := by
          intro hjin
          obtain ⟨l₁, l₂, rfl⟩ := List.append_of_mem hjin
          have hl₁ : l₁ ≠ [] := by
            intro h0
            subst h0
            simp only [List.nil_append, List.head?_cons] at hhead
            exact hj (Option.some_inj.mp hhead)
          obtain ⟨hch1, hch2, hlink⟩ := List.chain'_append.mp hchain
          have hplink := hlink (l₁.getLast hl₁)
            (Option.mem_def.mpr (List.getLast?_eq_getLast l₁ hl₁)) j
            (Option.mem_def.mpr rfl)
          obtain ⟨harcp, hxp⟩ := hplink
          cases l₂ with
          | nil =>
            have hcj : j = cur := by
              rw [List.getLast?_concat] at hlast
              exact Option.some_inj.mp hlast
            rw [← hcj] at harc
            exact arcs1_no_self d hd j harc
          | cons c2 t2 =>
            have hcur2 : cur ∈ j :: c2 :: t2 := by
              have he : (l₁ ++ j :: c2 :: t2).getLast? =
                  (j :: c2 :: t2).getLast? :=
                List.getLast?_append_of_ne_nil l₁ (by simp)
              rw [he] at hlast
              exact List.mem_of_mem_getLast? hlast
            have hpl₁ : l₁.getLast hl₁ ∈ l₁ := List.getLast_mem hl₁
            have hpc : l₁.getLast hl₁ ≠ cur := by
              intro hpcur
              have hdisj := (List.nodup_append.mp hnd).2.2
              exact hdisj hpl₁ (hpcur ▸ hcur2)
            have h2 := indegQ_ge_two d s v j (l₁.getLast hl₁) cur hpc
              harcp hxp harc hx
            have h1 := hK j hjc
            linarith
        -- recurse on the extended path
        have hres := ih (path ++ [j]) j
          (by rw [List.head?_append_of_ne_nil _ hpne]; exact hhead)
          (List.getLast?_concat _)
          (List.nodup_append.mpr ⟨hnd, List.nodup_singleton _,
            fun a ha ha2 => hjpath ((List.mem_singleton.mp ha2) ▸ ha)⟩)
          (by
            intro a ha had
            rcases List.mem_append.mp ha with h | h
            · exact hmem a h had
            · rw [List.mem_singleton.mp h]
              exact hjc)
          (List.chain'_append.mpr ⟨hchain, List.chain'_singleton _,
            by
              intro a ha b hb
              have hac : a = cur := by
                have h1 := Option.mem_def.mp ha
                rw [hlast] at h1
                exact (Option.some_inj.mp h1).symm
              have hbj : b = j := by
                have h1 := Option.mem_def.mp hb
                exact (Option.some_inj.mp h1).symm
              rw [hac, hbj]
              exact ⟨harc, hx⟩⟩)
        obtain ⟨hnd2, hprop2⟩ := hres
        simp only [caso1WalkAux, hnext, if_neg hj]
        constructor
        · have heq : path ++ j :: caso1WalkAux d s v f j =
              (path ++ [j]) ++ caso1WalkAux d s v f j := by simp
          rw [heq]
          exact hnd2
        · intro a ha had
          rcases List.mem_cons.mp ha with rfl | hal
          · exact ⟨hjc, cur, harc, hx⟩
          · exact hprop2 a hal had

/-- C7: under the full Case 1 constraint set (with valid data: nonnegative
demands, duplicate-free client list, depot not a client), the summed demand
of the clients on every vehicle's decoded route is at most that vehicle's
load capacity. -/
theorem C7_route_demand_le_capacity (d : Caso1Data) (s : Caso1Sol) (v : ℕ)
    (hs : caso1Sat d s) (hv : v ∈ d.vehicles)
    (hq : ∀ c ∈ d.clients, 0 ≤ d.demanda c)
    (hcnd : d.clients.Nodup) (hd : d.depot ∉ d.clients) :
    calcularDemandaRuta d (reconstruirRuta d s v) ≤ d.load_cap v := by
  have hcap := hs.2.2.2.2.2.1 v hv
  have hterm : ∀ c ∈ d.clients, 0 ≤ d.demanda c * indegQ d s v c :=
    fun c hc => mul_nonneg (hq c hc) (indegQ_nonneg d s v c)
  have hsum_nonneg :
      (0 : ℚ) ≤ (d.clients.map fun c => d.demanda c * indegQ d s v c).sum :=
    sum_map_nonneg _ _ hterm
  unfold reconstruirRuta
  split_ifs with hall
  · simp only [calcularDemandaRuta, List.filter_nil, List.map_nil,
      List.sum_nil]
    linarith
  · have hK := fun c hc => indegQ_le_one d s hs v hv c hc
    obtain ⟨hnd, hprop⟩ := caso1WalkAux_good d s v hd hK
      (d.nodes.length + 1) [d.depot] d.depot rfl rfl
      (List.nodup_singleton _)
      (by
        intro a ha had
        rw [List.mem_singleton.mp ha] at had
        exact absurd rfl had)
      (List.chain'_singleton _)
    set w := caso1WalkAux d s v (d.nodes.length + 1) d.depot with hw
    have hnd2 : (w.filter fun a => decide (a ≠ d.depot)).Nodup := by
      have heq : ([d.depot] ++ w).filter (fun a => decide (a ≠ d.depot)) =
          w.filter fun a => decide (a ≠ d.depot) := by
        simp
      rw [heq] at hnd
      exact hnd
    set cs := w.filter (fun a => decide (a ≠ d.depot)) with hcs
    have hsub : ∀ a ∈ cs, a ∈ d.clients ∧ 1 ≤ indegQ d s v a := by
      intro a ha
      have hmm := List.mem_filter.mp ha
      have had : a ≠ d.depot := by simpa using hmm.2
      obtain ⟨hac, p, hparc, hpx⟩ := hprop a hmm.1 had
      exact ⟨hac, indegQ_ge_one d s v a p hparc hpx⟩
    have hroute : calcularDemandaRuta d (d.depot :: w) =
        (cs.map d.demanda).sum := by
      unfold calcularDemandaRuta
      congr 1
      simp [hcs]
    rw [hroute]
    have step1 : (cs.map d.demanda).sum ≤
        (cs.map fun c => d.demanda c * indegQ d s v c).sum := by
      apply List.sum_le_sum
      intro c hc
      obtain ⟨hc1, hc2⟩ := hsub c hc
      calc d.demanda c = d.demanda c * 1 := by ring
        _ ≤ d.demanda c * indegQ d s v c :=
          mul_le_mul_of_nonneg_left hc2 (hq c hc1)
    have step2 : (cs.map fun c => d.demanda c * indegQ d s v c).sum ≤
        (d.clients.map fun c => d.demanda c * indegQ d s v c).sum := by
      have hcs_nd : cs.Nodup := hnd2
      rw [← List.sum_toFinset _ hcs_nd, ← List.sum_toFinset _ hcnd]
      apply Finset.sum_le_sum_of_subset_of_nonneg
      · intro a ha
        rw [List.mem_toFinset] at ha ⊢
        exact (hsub a ha).1
      · intro c hc _
        exact hterm c (List.mem_toFinset.mp hc)
    linarith

/-- Witness for `C7_route_demand_le_capacity` on a concrete feasible
instance: the route `0 → 1 → 0` serves demand `10 ≤ 30`. -/
theorem C7_route_demand_le_capacity_witness :
    caso1Sat inst7 sol7 ∧
    calcularDemandaRuta inst7 (reconstruirRuta inst7 sol7 0) ≤
      inst7.load_cap 0 :=
  ⟨sol7_sat,
    C7_route_demand_le_capacity inst7 sol7 0 sol7_sat (by decide)
      (by
        intro c hc
        simp only [inst7]
        split_ifs <;> norm_num)
      (by decide) (by decide)⟩

/-! ## Termination bounds of the three decoding loops -/

theorem caso1WalkAux_length_le (d : Caso1Data) (s : Caso1Sol) (v : ℕ) :
    ∀ f cur, (caso1WalkAux d s v f cur).length ≤ f := by
  intro f
  induction f with
  | zero =>
    intro cur
    simp [caso1WalkAux]
  | succ f ih =>
    intro cur
    cases hnext : activeSucc d s v cur with
    | none => simp [caso1WalkAux, hnext]
    | some j =>
      by_cases hj : j = d.depot
      · simp [caso1WalkAux, hnext, hj]
      · simp only [caso1WalkAux, hnext, if_neg hj, List.length_cons]
        exact Nat.succ_le_succ (ih j)

theorem caso3Next_some (active : List (ℕ × ℕ)) (depot : ℕ) (visit : List ℕ)
    (cur j : ℕ) (h : caso3Next active depot visit cur = some j) :
    (cur, j) ∈ active ∧ (visit.contains j = false ∨ j = depot) := by
  unfold caso3Next at h
  rcases Option.map_eq_some'.mp h with ⟨p, hp, hpj⟩
  have hmem := List.mem_of_find?_eq_some hp
  have hpred := List.find?_some hp
  simp only [Bool.and_eq_true, Bool.or_eq_true, Bool.not_eq_true',
    decide_eq_true_eq] at hpred
  obtain ⟨h1, h2⟩ := hpred
  subst hpj
  constructor
  · rw [← h1]
    exact hmem
  · exact h2

theorem caso3ArcPool_shrink (active : List (ℕ × ℕ)) {visit : List ℕ}
    {cur j : ℕ} (hmem : (cur, j) ∈ active)
    (hjv : visit.contains j = false) :
    caso3ArcPool active (j :: visit) < caso3ArcPool active visit := by
  refine filter_length_lt _ _ _ ?_ (cur, j) hmem ?_ ?_
  · intro p _ hp
    simp only [Bool.not_eq_true', List.contains_cons] at hp ⊢
    exact (Bool.or_eq_false_iff.mp hp).2
  · rw [hjv]
    rfl
  · simp [List.contains_cons]

theorem caso3NodePool_shrink (nodes : List ℕ) {visit : List ℕ} {j : ℕ}
    (hjn : j ∈ nodes) (hjv : visit.contains j = false) :
    caso3NodePool nodes (j :: visit) < caso3NodePool nodes visit := by
  refine filter_length_lt _ _ _ ?_ j hjn ?_ ?_
  · intro a _ ha
    simp only [Bool.not_eq_true', List.contains_cons] at ha ⊢
    exact (Bool.or_eq_false_iff.mp ha).2
  · rw [hjv]
    rfl
  · simp [List.contains_cons]

/-- Fuel-stability of the Case 3 decoding loop with respect to any measure
that decreases on every continuing step. -/
theorem caso3WalkAux_stable (active : List (ℕ × ℕ)) (depot : ℕ)
    (μ : List ℕ → ℕ)
    (hμ : ∀ (visit : List ℕ) (cur j : ℕ),
      caso3Next active depot visit cur = some j → j ≠ depot →
      μ (j :: visit) < μ visit) :
    ∀ f g (visit : List ℕ) (cur : ℕ), μ visit < f → μ visit < g →
      caso3WalkAux active depot f visit cur =
        caso3WalkAux active depot g visit cur := by
  intro f
  induction f with
  | zero =>
    intro g visit cur hf
    exact absurd hf (Nat.not_lt_zero _)
  | succ f ih =>
    intro g visit cur hf hg
    cases g with
    | zero => exact absurd hg (Nat.not_lt_zero _)
    | succ g =>
      cases hnext : caso3Next active depot visit cur with
      | none => simp only [caso3WalkAux, hnext]
      | some j =>
        simp only [caso3WalkAux, hnext]
        by_cases hj : j = depot
        · simp [hj]
        · simp only [if_neg hj]
          have hlt := hμ visit cur j hnext hj
          rw [ih g (j :: visit) j (by omega) (by omega)]

/-- C9: every decoding walk returns within network size + 1 iterations: the
Case 2 loop (uncapped in the source) is insensitive to any fuel beyond
`|NODES| + 1`; the Case 1 loop is hard-capped at `|NODES| + 1` iterations,
bounding its route length by `|NODES| + 2`; and the Case 3 loop (capped at
`|selected arcs| + 1` in the source) equals its uncapped limit already at
fuel `|NODES| + 1`. -/
theorem C9_decoder_iteration_bound :
    (∀ (d : Caso2Data) (s : Caso2Sol) (v f : ℕ), d.nodes.length + 1 ≤ f →
      caso2WalkAux d s v f [d.depot] d.depot =
        caso2WalkAux d s v (d.nodes.length + 1) [d.depot] d.depot) ∧
    (∀ (d : Caso1Data) (s : Caso1Sol) (v : ℕ),
      (reconstruirRuta d s v).length ≤ d.nodes.length + 2) ∧
    (∀ (d : Caso3Data) (s : Caso3Sol) (v f : ℕ),
      (∀ p ∈ caso3ArcosActivos d s v, p.2 ∈ d.nodes) →
      d.nodes.length + 1 ≤ f →
      d.depot :: caso3WalkAux (caso3ArcosActivos d s v) d.depot f
        [d.depot] d.depot = decodeCaso3 d s v) := by
  refine ⟨?_, ?_, ?_⟩
  · intro d s v f hf
    have hpool : caso2Pool d [d.depot] < d.nodes.length + 1 :=
      Nat.lt_succ_of_le (List.length_filter_le _ _)
    exact caso2WalkAux_stable d s v f (d.nodes.length + 1) [d.depot] d.depot
      (by omega) hpool
  · intro d s v
    unfold reconstruirRuta
    split_ifs
    · simp
    · have := caso1WalkAux_length_le d s v (d.nodes.length + 1) d.depot
      simp only [List.length_cons]
      omega
  · intro d s v f htargets hf
    set active := caso3ArcosActivos d s v with hactive
    have hnodeμ : ∀ (visit : List ℕ) (cur j : ℕ),
        caso3Next active d.depot visit cur = some j → j ≠ d.depot →
        caso3NodePool d.nodes (j :: visit) < caso3NodePool d.nodes visit := by
      intro visit cur j hnext hj
      obtain ⟨hmem, hor⟩ := caso3Next_some active d.depot visit cur j hnext
      have hjv : visit.contains j = false := by
        rcases hor with h | h
        · exact h
        · exact absurd h hj
      exact caso3NodePool_shrink d.nodes (htargets _ hmem) hjv
    have harcμ : ∀ (visit : List ℕ) (cur j : ℕ),
        caso3Next active d.depot visit cur = some j → j ≠ d.depot →
        caso3ArcPool active (j :: visit) < caso3ArcPool active visit := by
      intro visit cur j hnext hj
      obtain ⟨hmem, hor⟩ := caso3Next_some active d.depot visit cur j hnext
      have hjv : visit.contains j = false := by
        rcases hor with h | h
        · exact h
        · exact absurd h hj
      exact caso3ArcPool_shrink active hmem hjv
    have hnp : caso3NodePool d.nodes [d.depot] < d.nodes.length + 1 :=
      Nat.lt_succ_of_le (List.length_filter_le _ _)
    have hap : caso3ArcPool active [d.depot] < active.length + 1 :=
      Nat.lt_succ_of_le (List.length_filter_le _ _)
    have h1 : caso3WalkAux active d.depot f [d.depot] d.depot =
        caso3WalkAux active d.depot (max f (active.length + 1))
          [d.depot] d.depot :=
      caso3WalkAux_stable active d.depot (caso3NodePool d.nodes) hnodeμ
        f _ [d.depot] d.depot (by omega) (by omega)
    have h2 : caso3WalkAux active d.depot (active.length + 1)
          [d.depot] d.depot =
        caso3WalkAux active d.depot (max f (active.length + 1))
          [d.depot] d.depot :=
      caso3WalkAux_stable active d.depot (caso3ArcPool active) harcμ
        _ _ [d.depot] d.depot (by omega) (by omega)
    unfold decodeCaso3
    rw [← hactive, h1, h2]

/-- Witness for `C9_decoder_iteration_bound` at the concrete instances. -/
theorem C9_decoder_iteration_bound_witness :
    (caso2WalkAux exInst exSol 0 4 [exInst.depot] exInst.depot =
      caso2WalkAux exInst exSol 0 (exInst.nodes.length + 1) [exInst.depot]
        exInst.depot) ∧
    (reconstruirRuta inst5 sol5 0).length ≤ inst5.nodes.length + 2 ∧
    inst3.depot :: caso3WalkAux (caso3ArcosActivos inst3 sol3low 0)
        inst3.depot 5 [inst3.depot] inst3.depot = decodeCaso3 inst3 sol3low 0 :=
  ⟨C9_decoder_iteration_bound.1 exInst exSol 0 4 (by norm_num [exInst]),
   C9_decoder_iteration_bound.2.1 inst5 sol5 0,
   C9_decoder_iteration_bound.2.2 inst3 sol3low 0 5 (by decide)
     (by norm_num [inst3])⟩

/-! ## The Case 3 decoding walk never repeats an intermediate node

Every continuing step of the Case 3 walk appends a node that is not yet in
`visitados` (the only revisit its scan allows is the depot, which ends the
walk), so the emitted nodes before the optional closing depot are pairwise
distinct and avoid the visited set.  No fuel bound is needed: exhaustion
returns the route built so far. -/

theorem caso3WalkAux_nodup (active : List (ℕ × ℕ)) (depot : ℕ) :
    ∀ (f : ℕ) (visit : List ℕ) (cur : ℕ), depot ∈ visit →
      ∃ l, (caso3WalkAux active depot f visit cur = l ∨
            caso3WalkAux active depot f visit cur = l ++ [depot]) ∧
        l.Nodup ∧ ∀ a ∈ l, a ∉ visit := by
  intro f
  induction f with
  | zero =>
    intro visit cur _
    exact ⟨[], Or.inl (by simp [caso3WalkAux]), List.nodup_nil, by simp⟩
  | succ f ih =>
    intro visit cur hdep
    cases hnext : caso3Next active depot visit cur with
    | none =>
      exact ⟨[], Or.inl (by simp [caso3WalkAux, hnext]), List.nodup_nil,
        by simp⟩
    | some j =>
      by_cases hj : j = depot
      · refine ⟨[], Or.inr ?_, List.nodup_nil, by simp⟩
        simp [caso3WalkAux, hnext, hj]
      · obtain ⟨_, hor⟩ := caso3Next_some active depot visit cur j hnext
        have hjv : visit.contains j = false := by
          rcases hor with h | h
          · exact h
          · exact absurd h hj
        have hjvis : j ∉ visit := contains_false_not_mem hjv
        obtain ⟨l, hcase, hnd, hav⟩ :=
          ih (j :: visit) j (List.mem_cons_of_mem _ hdep)
        refine ⟨j :: l, ?_, ?_, ?_⟩
        · rcases hcase with h | h
          · exact Or.inl (by simp [caso3WalkAux, hnext, hj, h])
          · exact Or.inr (by simp [caso3WalkAux, hnext, hj, h])
        · exact List.nodup_cons.mpr
            ⟨fun hjl => (hav j hjl) (List.mem_cons_self _ _), hnd⟩
        · intro a ha
          rcases List.mem_cons.mp ha with rfl | hal
          · exact hjvis
          · exact fun hin => hav a hal (List.mem_cons_of_mem _ hin)

/-- C5 (amended): the Case 2 decoder always returns a route that begins and
ends at the Depot with no repeated intermediate node; the Case 3 decoder's
route begins at the Depot and repeats no intermediate node but need not end
at the Depot; the Case 1 decoder guarantees only that a non-empty route
begins at the Depot. -/
theorem C5_decoder_route_shape :
    (∀ (d : Caso2Data) (s : Caso2Sol) (v : ℕ),
      (decodeCaso2 d s v).head? = some d.depot ∧
      (decodeCaso2 d s v).getLast? = some d.depot ∧
      (((decodeCaso2 d s v).drop 1).dropLast).Nodup ∧
      d.depot ∉ ((decodeCaso2 d s v).drop 1).dropLast) ∧
    (∀ (d : Caso3Data) (s : Caso3Sol) (v : ℕ),
      (decodeCaso3 d s v).head? = some d.depot ∧
      (((decodeCaso3 d s v).drop 1).dropLast).Nodup ∧
      d.depot ∉ ((decodeCaso3 d s v).drop 1).dropLast) ∧
    (∀ (d : Caso1Data) (s : Caso1Sol) (v : ℕ),
      reconstruirRuta d s v = [] ∨
      (reconstruirRuta d s v).head? = some d.depot) := by
  refine ⟨fun d s v => decodeCaso2_route_shape d s v, ?_, ?_⟩
  · intro d s v
    obtain ⟨l, hcase, hnd, hav⟩ :=
      caso3WalkAux_nodup (caso3ArcosActivos d s v) d.depot
        ((caso3ArcosActivos d s v).length + 1) [d.depot] d.depot
        (List.mem_singleton.mpr rfl)
    unfold decodeCaso3
    rcases hcase with h | h <;> rw [h]
    · refine ⟨rfl, ?_, ?_⟩
      · simp only [List.drop_succ_cons, List.drop_zero]
        exact List.Nodup.sublist (List.dropLast_sublist l) hnd
      · simp only [List.drop_succ_cons, List.drop_zero]
        intro hmem
        exact hav d.depot ((List.dropLast_sublist l).subset hmem)
          (List.mem_singleton.mpr rfl)
    · refine ⟨rfl, ?_, ?_⟩
      · simp only [List.drop_succ_cons, List.drop_zero, List.dropLast_concat]
        exact hnd
      · simp only [List.drop_succ_cons, List.drop_zero, List.dropLast_concat]
        exact fun hmem => hav d.depot hmem (List.mem_singleton.mpr rfl)
  · intro d s v
    unfold reconstruirRuta
    split_ifs
    · exact Or.inl rfl
    · exact Or.inr rfl

/-- C5 counterexample: on the malformed selected-arc set `0→1, 1→2, 2→1`
the Case 1 decoder returns `[0, 1, 2, 1, 2]` — truncated by the iteration
cap — which does not end at the depot and repeats the intermediate nodes
`1` and `2`; and on the dangling selected-arc set with only `0→1` the
Case 3 decoder returns `[0, 1]`, which does not end at the depot. -/
theorem C5_malformed_routes_not_closed :
    reconstruirRuta inst5 sol5 0 = [0, 1, 2, 1, 2] ∧
    sol5.y 0 = true ∧
    (reconstruirRuta inst5 sol5 0).getLast? ≠ some inst5.depot ∧
    ¬ (((reconstruirRuta inst5 sol5 0).drop 1).dropLast).Nodup ∧
    decodeCaso3 inst3 sol3dangle 0 = [0, 1] ∧
    sol3dangle.y 0 = true ∧
    (decodeCaso3 inst3 sol3dangle 0).getLast? ≠ some inst3.depot := by
  refine ⟨by decide, by decide, by decide, by decide, by decide, by decide,
    by decide⟩
